import Mathlib

/-!
# Auxilia — shallow embedding and verification

This file embeds the engines of the Auxilia color-tool suite (design-token
parsing and generation, palette/ramp generation, WCAG contrast computation,
converter color history) as executable Lean definitions, translated directly
from the JavaScript sources:

* `TokenParsers` / `TokenGenerators` / `DesignTokenManager.exportAll`
  (design-token manager source file),
* `PaletteGenerator.initializeHarmonyAlgorithms` / `generateColorRamp`
  (`js/palette-generator.js`),
* `AccessibilityChecker.calculateContrastRatio` / `getRelativeLuminance`
  (accessibility checker source file),
* `ColorHistory.addColor` (`js/oklch-converter.js`).

Modelling conventions:

* JavaScript numbers are modelled as `ℚ` (exact arithmetic; float rounding is
  out of scope), except WCAG luminance which uses `ℝ` because the sRGB
  transform raises to the real power 2.4 (`Real.rpow`).
* JavaScript strings are modelled as `String`, and all string operations used
  by the code (`trim`, `includes`, `startsWith`, `toLowerCase`, `split`,
  `replace` of single characters) are spelled out on `String.data` character
  lists so that they are fully transparent for proof and evaluation.
  `toLowerCase` is modelled on basic-latin letters (the only letters the
  repository's token names and color syntax use).
* The external culori library (spec §1: treated as a black box) enters only as
  a parameter: `culori.oklch` as a `String → Option Oklch` argument and
  `culori.formatHex` as an `Oklch → String` argument, except that `culori.rgb`
  on 6-digit hex literals is modelled concretely (standard `#rrggbb` → three
  channels divided by 255) because one claim evaluates the contrast ratio at
  the concrete colors `#000000` and `#ffffff`.
* `JSON.parse` is a host builtin, likewise passed as a parameter.
-/

namespace Auxilia

/-! ## JavaScript string primitives -/

/-- Model of JavaScript `\s` (whitespace class) on the ASCII range. -/
def jsIsSpace (c : Char) : Bool :=
  c = ' ' || c = '\t' || c = '\n' || c = '\r' || c = '\x0b' || c = '\x0c'

/-- Model of JavaScript `String.prototype.trim`. -/
def jsTrim (s : String) : String :=
  ⟨(s.data.dropWhile jsIsSpace).reverse.dropWhile jsIsSpace |>.reverse⟩

/-- Model of JavaScript `String.prototype.startsWith`. -/
def jsStartsWith (s pre : String) : Bool :=
  pre.data.isPrefixOf s.data

/-- Contiguous-sublist test on character lists (JS `String.prototype.includes`). -/
def containsAux (needle : List Char) : List Char → Bool
  | [] => needle.isPrefixOf []
  | c :: rest => needle.isPrefixOf (c :: rest) || containsAux needle rest

/-- Model of JavaScript `String.prototype.includes`. -/
def jsIncludes (s needle : String) : Bool :=
  containsAux needle.data s.data

/-- Model of JavaScript `String.prototype.toLowerCase` (basic-latin letters). -/
def jsToLower (s : String) : String :=
  ⟨s.data.map Char.toLower⟩

/-- Model of JavaScript `String.prototype.split` with a one-character
separator. -/
def jsSplitChar (sep : Char) (s : String) : List String :=
  (List.splitOnP (· = sep) s.data).map fun l => (⟨l⟩ : String)

/-- Model of JavaScript `String.prototype.replace` with a global
single-character pattern and single-character replacement. -/
def jsReplaceChar (pat rep : Char) (s : String) : String :=
  ⟨s.data.map fun c => if c = pat then rep else c⟩

/-! ## Type inference (`TokenParsers.inferTokenType`)

The source checks, on the lowercased value, in order:
`/^#[0-9a-f]\x7b3,8\x7d$/i`, `/^rgb/`, `/^hsl/`, `includes("color")` →
`color`; `/\d+(px|rem|em|%)$/` → `dimension`; `/^\d+$/` → `number`;
`includes("font") || includes("family")` → `fontFamily`; else `string`. -/

/-- `[0-9a-f]` with the `i` flag: a hexadecimal digit of either case. -/
def isHexDigitChar (c : Char) : Bool :=
  c.isDigit || ('a' ≤ c && c ≤ 'f') || ('A' ≤ c && c ≤ 'F')

/-- Model of `/^#[0-9a-f]\x7b3,8\x7d$/i`: `#` followed by 3 to 8 hex digits. -/
def matchesHexColor (s : String) : Bool :=
  match s.data with
  | '#' :: rest => rest.all isHexDigitChar && decide (3 ≤ rest.length) && decide (rest.length ≤ 8)
  | _ => false

/-- Model of the unanchored `/\d+(px|rem|em|%)$/`: the string ends in one of
the units, immediately preceded by at least one decimal digit. -/
def matchesDimension (s : String) : Bool :=
  ["px", "rem", "em", "%"].any fun u =>
    u.data.isSuffixOf s.data &&
      match (s.data.take (s.data.length - u.data.length)).getLast? with
      | some c => c.isDigit
      | none => false

/-- Model of `/^\d+$/`: nonempty and all decimal digits. -/
def matchesAllDigits (s : String) : Bool :=
  !s.data.isEmpty && s.data.all Char.isDigit

/-- `TokenParsers.inferTokenType` (design-token manager source): infer a token
type from the lexical shape of its value. -/
def inferTokenType (value : String) : String :=
  let valueStr := jsToLower value
  if matchesHexColor valueStr || jsStartsWith valueStr "rgb" ||
      jsStartsWith valueStr "hsl" || jsIncludes valueStr "color" then
    "color"
  else if matchesDimension valueStr then
    "dimension"
  else if matchesAllDigits valueStr then
    "number"
  else if jsIncludes valueStr "font" || jsIncludes valueStr "family" then
    "fontFamily"
  else
    "string"

example : inferTokenType "#2196f3" = "color" := by decide
example : inferTokenType "8px" = "dimension" := by decide
example : inferTokenType "400" = "number" := by decide
example : inferTokenType "Inter, sans-serif" = "string" := by decide
example : inferTokenType "#abcde" = "color" := by decide

/-! ## Token data model

A parsed token is `\x7bvalue, type, path\x7d` (spec §3); a token set is the
JavaScript object `tokens`, i.e. an association list in which assigning to an
existing key replaces the value in place and assigning to a fresh key appends
(JavaScript string-keyed property order). -/

structure Token where
  value : String
  type : String
  path : List String
deriving Repr, DecidableEq

abbrev TokenSet := List (String × Token)

/-- JavaScript `m[k] = v` on a string-keyed object: overwrite in place when
the key exists, else append (JavaScript property-insertion order). -/
def jsAssign {α : Type} (m : List (String × α)) (k : String) (v : α) :
    List (String × α) :=
  if m.any (·.1 = k) then m.map fun p => if p.1 = k then (k, v) else p
  else m ++ [(k, v)]

/-- `tokens[name] = tok` on the token object. -/
def insertReplace (m : TokenSet) (k : String) (v : Token) : TokenSet :=
  jsAssign m k v

/-! ## CSS / SCSS variable extraction (`TokenParsers.parseCSS` / `parseSCSS`)

The source runs the global regex `--([^:]+):\s*([^;]+);` (resp.
`\$([^:]+):\s*([^;]+);`) in an `exec` loop. `tryMatchVar` decides whether the pattern matches at the
current position: the leading literal, then a nonempty run of non-`:`
characters, `:`, then a nonempty run of non-`;` characters, then `;`
(`\s*` only moves whitespace out of the second capture, and both captures are
then `trim`med, so capturing the raw run and trimming is equivalent).
`scanVars` is the `exec` loop: leftmost match, resume after each match. -/

def tryMatchVar (lead : List Char) (s : List Char) :
    Option (List Char × List Char × List Char) :=
  if lead.isPrefixOf s then
    let s0 := s.drop lead.length
    let name := s0.takeWhile (· ≠ ':')
    match s0.dropWhile (· ≠ ':') with
    | ':' :: s2 =>
      if name.isEmpty then none
      else
        let seg := s2.takeWhile (· ≠ ';')
        match s2.dropWhile (· ≠ ';') with
        | ';' :: s4 => if seg.isEmpty then none else some (name, seg, s4)
        | _ => none
    | _ => none
  else none

def scanVars (lead : List Char) : Nat → List Char → List (String × String)
  | 0, _ => []
  | _, [] => []
  | fuel + 1, c :: rest =>
    match tryMatchVar lead (c :: rest) with
    | some (name, seg, s') =>
      (jsTrim ⟨name⟩, jsTrim ⟨seg⟩) :: scanVars lead fuel s'
    | none => scanVars lead fuel rest

/-- Build the token object from the matched `(name, value)` pairs: each match
executes `tokens[name] = \x7bvalue, type: inferTokenType(value),
path: name.split('-')\x7d`. -/
def varsToTokens (pairs : List (String × String)) : TokenSet :=
  pairs.foldl
    (fun toks p =>
      insertReplace toks p.1
        ⟨p.2, inferTokenType p.2, jsSplitChar '-' p.1⟩)
    []

/-- `TokenParsers.parseCSS`. -/
def parseCSS (text : String) : TokenSet :=
  varsToTokens (scanVars ['-', '-'] text.data.length text.data)

/-- `TokenParsers.parseSCSS`. -/
def parseSCSS (text : String) : TokenSet :=
  varsToTokens (scanVars ['$'] text.data.length text.data)

example :
    parseCSS "--foo: 8px;" = [("foo", ⟨"8px", "dimension", ["foo"]⟩)] := by
  decide

/-! ## JSON / DTCG flattening (`TokenParsers.parseJSON` / `flattenTokens`)

`JSON.parse` is a host builtin; it is passed in as a `String → Option Json`
parameter (`none` models a thrown `SyntaxError`). `flattenTokens` is
repository code: a node that is an object (or array) with a `value` key is a
token, any other object or array is a group to recurse into, and scalars are
dropped. The dynamic token value is coerced to a string with the JavaScript
string coercion (`jsToString`); non-integer number rendering is approximated,
no claim depends on it. -/

inductive Json where
  | str (s : String)
  | num (q : ℚ)
  | bool (b : Bool)
  | null
  | arr (elems : List Json)
  | obj (fields : List (String × Json))
deriving Repr

/-- JavaScript `String(value)` on JSON values (template-literal coercion). -/
def jsToString : Json → String
  | .str s => s
  | .num q => if q.den = 1 then toString q.num else toString q
  | .bool b => if b then "true" else "false"
  | .null => "null"
  | .arr xs => String.intercalate "," (xs.attach.map fun v => jsToString v.1)
  | .obj _ => "[object Object]"
termination_by j => sizeOf j
decreasing_by
  simp only [Json.arr.sizeOf_spec]
  have := List.sizeOf_lt_of_mem v.2
  omega

mutual

/-- Structural size of a JSON tree, used as recursion fuel for
`flattenTokens` (it bounds the recursion depth, so the fuel is never
exhausted). -/
def jsonFuel : Json → Nat
  | .obj fields => 1 + jsonFuelFields fields
  | .arr xs => 1 + jsonFuelList xs
  | _ => 1

def jsonFuelFields : List (String × Json) → Nat
  | [] => 0
  | p :: rest => 1 + jsonFuel p.2 + jsonFuelFields rest

def jsonFuelList : List Json → Nat
  | [] => 0
  | v :: rest => 1 + jsonFuel v + jsonFuelList rest

end

/-- `Object.entries` as used by `flattenTokens` (objects and arrays are the
`typeof value === 'object'` cases that can be iterated; JavaScript `null`
is filtered out by the `value &&` guard before `entries` is reached). -/
def jsEntries : Json → List (String × Json)
  | .obj fields => fields
  | .arr xs => xs.enum.map fun p => (toString p.1, p.2)
  | _ => []

/-- `value && typeof value === 'object'`. -/
def isObjectLike : Json → Bool
  | .obj _ => true
  | .arr _ => true
  | _ => false

/-- `value.hasOwnProperty('value')`. -/
def hasValueKey : Json → Bool
  | .obj fields => fields.any (·.1 = "value")
  | _ => false

/-- Field lookup on a JSON object (first occurrence). -/
def jsonField (j : Json) (key : String) : Option Json :=
  match j with
  | .obj fields => (fields.find? (·.1 = key)).map (·.2)
  | _ => none

/-- The token recorded for a node with a `value` key:
`result[currentPath.join('.')] = \x7b...value, path: currentPath\x7d`; the
generators afterwards read `value` (string-coerced on use) and `type`
(compared with `===` against string constants, so a missing or non-string
`type` behaves as a string no generator branches on). -/
def tokenOfNode (v : Json) (currentPath : List String) : Token :=
  { value := (jsonField v "value").elim "" jsToString
    type := match jsonField v "type" with
            | some (.str t) => t
            | _ => ""
    path := currentPath }

/-- `TokenParsers.flattenTokens`, fuel-based (the fuel starts at `sizeOf` of
the root, which bounds the recursion depth, so it is never exhausted). -/
def flattenTokens : Nat → Json → List String → TokenSet → TokenSet
  | 0, _, _, result => result
  | fuel + 1, j, path, result =>
    (jsEntries j).foldl
      (fun r p =>
        let currentPath := path ++ [p.1]
        if isObjectLike p.2 && hasValueKey p.2 then
          insertReplace r (String.intercalate "." currentPath)
            (tokenOfNode p.2 currentPath)
        else if isObjectLike p.2 then
          flattenTokens fuel p.2 currentPath r
        else r)
      result

inductive TokenError where
  | formatError
  | parseError
deriving Repr, DecidableEq

/-- `TokenParsers.parseJSON`: `JSON.parse` then flatten; a parse failure is
rethrown as `ParseError` ("Invalid JSON format"). -/
def parseJSON (jsonParse : String → Option Json) (text : String) :
    Except TokenError TokenSet :=
  match jsonParse text with
  | some data => .ok (flattenTokens (jsonFuel data) data [] [])
  | none => .error .parseError

/-- `TokenParsers.parseInput`: format detection in source order, throwing
`FormatError` ("Unrecognized format") when no shape matches. -/
def parseInput (jsonParse : String → Option Json) (input : String) :
    Except TokenError TokenSet :=
  if jsStartsWith input "\x7b" then parseJSON jsonParse input
  else if jsIncludes input "--" then .ok (parseCSS input)
  else if jsIncludes input "$" then .ok (parseSCSS input)
  else .error .formatError

example :
    parseInput (fun _ => none) "hello world" = .error .formatError := rfl
example :
    parseInput (fun _ => none) "$a: 3;" = .ok (parseSCSS "$a: 3;") := rfl

/-! ## Number rendering helpers for the generators

`intToDecString` models the JavaScript template interpolation of an
integer-valued number (the result of `Math.round`); `jsParseFloat` models
`parseFloat` (longest valid numeric prefix after leading whitespace, `none`
for `NaN`); `jsRound` models `Math.round` (round half toward +∞). -/

def natDecAux : Nat → Nat → List Char → List Char
  | 0, _, acc => acc
  | fuel + 1, n, acc =>
    if n < 10 then Nat.digitChar n :: acc
    else natDecAux fuel (n / 10) (Nat.digitChar (n % 10) :: acc)

def natToDecString (n : Nat) : String :=
  ⟨natDecAux (n + 1) n []⟩

def intToDecString (i : Int) : String :=
  if i < 0 then "-" ++ natToDecString i.natAbs else natToDecString i.toNat

example : intToDecString 24 = "24" := by decide
example : intToDecString (-3) = "-3" := by decide

def digitsToNat (l : List Char) : Nat :=
  l.foldl (fun n c => 10 * n + (c.toNat - '0'.toNat)) 0

/-- The syntactic content of the numeric prefix `parseFloat` consumes:
sign, integer-part digits, fraction digits (value and count), exponent. -/
structure FloatScan where
  neg : Bool
  ip : Nat
  fp : Nat
  fdigits : Nat
  expo : Int
deriving DecidableEq, Repr

/-- The scanning part of JavaScript `parseFloat`: optional leading
whitespace, optional sign, decimal mantissa (at least one digit), optional
exponent; `none` models `NaN` when no numeric prefix exists. -/
def jsParseFloatScan (s : String) : Option FloatScan :=
  let l := s.data.dropWhile jsIsSpace
  let neg : Bool := match l with
    | '-' :: _ => true
    | _ => false
  let l1 := match l with
    | '-' :: r => r
    | '+' :: r => r
    | _ => l
  let intPart := l1.takeWhile Char.isDigit
  let l2 := l1.drop intPart.length
  let fracPart := match l2 with
    | '.' :: r => r.takeWhile Char.isDigit
    | _ => []
  let l3 := match l2 with
    | '.' :: r => r.drop fracPart.length
    | _ => l2
  if intPart.isEmpty && fracPart.isEmpty then none
  else
    let expo : ℤ := match l3 with
      | 'e' :: r | 'E' :: r =>
        let esign : ℤ := match r with
          | '-' :: _ => -1
          | _ => 1
        let r1 := match r with
          | '-' :: r' => r'
          | '+' :: r' => r'
          | _ => r
        let edigits := r1.takeWhile Char.isDigit
        if edigits.isEmpty then 0 else esign * (digitsToNat edigits : ℤ)
      | _ => 0
    some ⟨neg, digitsToNat intPart, digitsToNat fracPart, fracPart.length, expo⟩

/-- The numeric value of a scanned float. -/
def floatValue (f : FloatScan) : ℚ :=
  (if f.neg then -1 else 1) * ((f.ip : ℚ) + (f.fp : ℚ) / 10 ^ f.fdigits) *
    10 ^ f.expo

/-- Model of JavaScript `parseFloat`. -/
def jsParseFloat (s : String) : Option ℚ :=
  (jsParseFloatScan s).map floatValue

example : jsParseFloatScan "1.5rem" = some ⟨false, 1, 5, 1, 0⟩ := by decide
example : jsParseFloatScan "rem" = none := by decide

/-- Model of JavaScript `Math.round`. -/
def jsRound (q : ℚ) : ℤ := ⌊q + 1 / 2⌋

/-! ## `JSON.stringify` model (string maps, indentation 2)

Used by the `js` and `json` generators. -/

/-- JSON escaping of one character, as `JSON.stringify` performs it. -/
def jsonEscapeChar (c : Char) : String :=
  if c = '"' then "\\\""
  else if c = '\\' then "\\\\"
  else if c = '\n' then "\\n"
  else if c = '\r' then "\\r"
  else if c = '\t' then "\\t"
  else if c = '\x08' then "\\b"
  else if c = '\x0c' then "\\f"
  else if c.toNat < 0x20 then
    "\\u00" ++ ⟨[Nat.digitChar (c.toNat / 16), Nat.digitChar (c.toNat % 16)]⟩
  else String.singleton c

/-- A JSON string literal for `s`. -/
def jsonQuote (s : String) : String :=
  "\"" ++ String.join (s.data.map jsonEscapeChar) ++ "\""

/-- `JSON.stringify(m, null, 2)` for a flat string-to-string object. -/
def jsStringifyFlat (m : List (String × String)) : String :=
  if m.isEmpty then "\x7b\x7d"
  else
    "\x7b\n" ++
      String.intercalate ",\n"
        (m.map fun p => "  " ++ jsonQuote p.1 ++ ": " ++ jsonQuote p.2) ++
      "\n\x7d"

/-- `JSON.stringify(m, null, 2)` for the `json` generator's two-level object
`name → \x7bvalue, type\x7d`. -/
def jsStringifyTokens (m : List (String × Token)) : String :=
  if m.isEmpty then "\x7b\x7d"
  else
    "\x7b\n" ++
      String.intercalate ",\n"
        (m.map fun p =>
          "  " ++ jsonQuote p.1 ++ ": \x7b\n    \"value\": " ++
            jsonQuote p.2.value ++ ",\n    \"type\": " ++ jsonQuote p.2.type ++
            "\n  \x7d") ++
      "\n\x7d"

/-! ## Token generators (`TokenGenerators.generators`) -/

/-- `generators.css`. -/
def generateCss (tokens : TokenSet) : String :=
  (tokens.foldl
    (fun output p =>
      output ++ "  --" ++ jsReplaceChar '.' '-' p.1 ++ ": " ++ p.2.value ++ ";\n")
    ":root \x7b\n") ++ "\x7d"

/-- `generators.scss`. -/
def generateScss (tokens : TokenSet) : String :=
  tokens.foldl
    (fun output p =>
      output ++ "$" ++ jsReplaceChar '.' '-' p.1 ++ ": " ++ p.2.value ++ ";\n")
    "// Design Tokens\n\n"

/-- `generators.js`. -/
def generateJs (tokens : TokenSet) : String :=
  let jsObject := tokens.foldl
    (fun m p => jsAssign m (jsReplaceChar '.' '_' p.1) p.2.value) []
  "export const tokens = " ++ jsStringifyFlat jsObject ++ ";"

/-- `generators.json`. -/
def generateJson (tokens : TokenSet) : String :=
  let jsonTokens := tokens.foldl
    (fun m p => jsAssign m p.1 p.2) []
  jsStringifyTokens jsonTokens

/-- `TokenGenerators.generateTailwindVariable`. -/
def generateTailwindVariable (name : String) (token : Token) : String :=
  let parts := jsSplitChar '.' name
  let lastPart := parts.getLast?.getD ""
  let themeVar :=
    if token.type = "color" then
      if parts.length ≥ 2 then
        let colorName := (parts.drop (parts.length - 2)).headD ""
        "--color-" ++ colorName ++ "-" ++ lastPart
      else
        "--color-" ++ lastPart
    else if token.type = "dimension" then
      let lowerName := jsToLower name
      if jsIncludes lowerName "spacing" || jsIncludes lowerName "space" ||
          jsIncludes lowerName "margin" || jsIncludes lowerName "padding" then
        "--spacing-" ++ lastPart
      else if jsIncludes lowerName "font" && jsIncludes lowerName "size" then
        "--font-size-" ++ lastPart
      else
        "--spacing-" ++ lastPart
    else if token.type = "fontFamily" then
      "--font-family-" ++ lastPart
    else if token.type = "fontWeight" then
      "--font-weight-" ++ lastPart
    else
      "--" ++ lastPart
  if themeVar = "" then "" else jsToLower (jsReplaceChar '.' '-' themeVar)

/-- `generators.tailwind`. -/
def generateTailwind (tokens : TokenSet) : String :=
  let body := tokens.foldl
    (fun output p =>
      let themeVar := generateTailwindVariable p.1 p.2
      if themeVar ≠ "" then
        output ++ "  " ++ themeVar ++ ": " ++ p.2.value ++ ";\n"
      else output)
    "@import \"tailwindcss\";\n\n@theme \x7b\n"
  body ++ "\x7d" ++
    "\n\n/* Usage examples:\n" ++
    "   bg-primary-500     -> uses --color-primary-500\n" ++
    "   p-small           -> uses --spacing-small\n" ++
    "   text-body         -> uses --font-size-body\n" ++
    "*/"

/-- `generators.ios`. -/
def generateIos (tokens : TokenSet) : String :=
  (tokens.foldl
    (fun output p =>
      let swiftName := jsReplaceChar '-' '_' (jsReplaceChar '.' '_' p.1)
      if p.2.type = "color" then
        output ++ "    static let " ++ swiftName ++ " = UIColor(hex: \"" ++
          p.2.value ++ "\")\n"
      else
        output ++ "    static let " ++ swiftName ++ " = \"" ++ p.2.value ++ "\"\n")
    "// Design Tokens for iOS\n\nimport UIKit\n\nstruct DesignTokens \x7b\n") ++ "\x7d"

/-- `TokenGenerators.convertDimensionForAndroid`. -/
def convertDimensionForAndroid (value : String) : String :=
  if jsIncludes value "px" then value
  else if jsIncludes value "rem" then
    (match jsParseFloat value with
     | some remValue => intToDecString (jsRound (remValue * 16))
     | none => "NaN") ++ "dp"
  else if matchesAllDigits value then value ++ "dp"
  else value

example : convertDimensionForAndroid "1.5rem" = "24dp" := by
  have h1 : jsParseFloat "1.5rem" = some (3 / 2 : ℚ) := by
    have : jsParseFloatScan "1.5rem" = some ⟨false, 1, 5, 1, 0⟩ := by decide
    rw [jsParseFloat, this]
    norm_num [floatValue]
  have h2 : jsRound ((3 / 2 : ℚ) * 16) = 24 := by
    rw [jsRound]
    norm_num
  rw [convertDimensionForAndroid]
  simp only [h1, h2]
  decide
example : convertDimensionForAndroid "16px" = "16px" := by decide
example : convertDimensionForAndroid "8" = "8dp" := by decide

/-- Buckets of the Android generator. -/
inductive AndroidBucket where
  | colors
  | dimens
  | strings
deriving DecidableEq, Repr

/-- The sanitized Android resource name: replace every `.` and `-` by `_`,
then lowercase. -/
def androidResourceName (name : String) : String :=
  jsToLower (jsReplaceChar '-' '_' (jsReplaceChar '.' '_' name))

/-- The loop body of `generators.android`: which resource file a token goes
to and the XML line appended there. For `color` tokens the value gets `#`
prepended exactly when it does not already start with `#`. -/
def androidLine (name : String) (token : Token) : AndroidBucket × String :=
  let androidName := androidResourceName name
  if token.type = "color" then
    let colorValue :=
      if jsStartsWith token.value "#" then token.value else "#" ++ token.value
    (.colors, "    <color name=\"" ++ androidName ++ "\">" ++ colorValue ++
      "</color>\n")
  else if token.type = "dimension" then
    (.dimens, "    <dimen name=\"" ++ androidName ++ "\">" ++
      convertDimensionForAndroid token.value ++ "</dimen>\n")
  else
    (.strings, "    <string name=\"" ++ androidName ++ "\">" ++ token.value ++
      "</string>\n")

/-- `generators.android`: partition into `colors.xml` / `dimens.xml` /
`strings.xml`, emit only the non-empty buckets. -/
def generateAndroid (tokens : TokenSet) : String :=
  let header := "<?xml version=\"1.0\" encoding=\"utf-8\"?>\n<resources>\n"
  let step := fun (acc : (String × Bool) × (String × Bool) × (String × Bool))
      (p : String × Token) =>
    let line := androidLine p.1 p.2
    match line.1 with
    | .colors => ((acc.1.1 ++ line.2, true), acc.2.1, acc.2.2)
    | .dimens => (acc.1, (acc.2.1.1 ++ line.2, true), acc.2.2)
    | .strings => (acc.1, acc.2.1, (acc.2.2.1 ++ line.2, true))
  let acc := tokens.foldl step ((header, false), (header, false), (header, false))
  let colors := acc.1.1 ++ "</resources>"
  let dimens := acc.2.1.1 ++ "</resources>"
  let strings := acc.2.2.1 ++ "</resources>"
  let result :=
    (if acc.1.2 then "<!-- colors.xml -->\n" ++ colors else "") |>
    (fun r => if acc.2.1.2 then
        (if r ≠ "" then r ++ "\n\n" else r) ++ "<!-- dimens.xml -->\n" ++ dimens
      else r) |>
    (fun r => if acc.2.2.2 then
        (if r ≠ "" then r ++ "\n\n" else r) ++ "<!-- strings.xml -->\n" ++ strings
      else r)
  if result = "" then "<!-- No valid tokens found for Android conversion -->"
  else result

/-- `TokenGenerators.generate`: dynamic dispatch on the format key; an
unknown format throws (`none`). -/
def generate (format : String) (tokens : TokenSet) : Option String :=
  if format = "css" then some (generateCss tokens)
  else if format = "scss" then some (generateScss tokens)
  else if format = "js" then some (generateJs tokens)
  else if format = "json" then some (generateJson tokens)
  else if format = "tailwind" then some (generateTailwind tokens)
  else if format = "ios" then some (generateIos tokens)
  else if format = "android" then some (generateAndroid tokens)
  else none

/-- `DesignTokenManager.getFileExtension`. -/
def getFileExtension (format : String) : String :=
  if format = "css" then "css"
  else if format = "scss" then "scss"
  else if format = "js" then "js"
  else if format = "json" then "json"
  else if format = "tailwind" then "js"
  else if format = "ios" then "swift"
  else if format = "android" then "xml"
  else "txt"

/-- `DesignTokenManager.exportAll`: render each of the seven formats and
store it in the `files` object under `tokens.<extension>`; a generator
error is caught and skipped. -/
def exportAll (tokens : TokenSet) : List (String × String) :=
  ["css", "scss", "js", "json", "tailwind", "ios", "android"].foldl
    (fun files format =>
      match generate format tokens with
      | some content =>
        jsAssign files ("tokens." ++ getFileExtension format) content
      | none => files)
    []

example : (exportAll []).map Prod.fst =
    ["tokens.css", "tokens.scss", "tokens.js", "tokens.json", "tokens.swift",
     "tokens.xml"] := by decide

/-! ## Palette engine (`js/palette-generator.js`)

`culori.oklch` is external (spec §1/§2: ColorMath is a consumed black box);
the harmony algorithms and the ramp take its result — an OKLCH triple — via a
`String → Option Oklch` parameter (`none` models an unparseable color), and
`culori.formatHex` enters as an `Oklch → String` parameter. -/

structure Oklch where
  l : ℚ
  c : ℚ
  h : ℚ
deriving DecidableEq, Repr

/-- JavaScript `%` (remainder with the sign of the dividend:
`a - b * trunc(a / b)`). -/
def jsMod (a b : ℚ) : ℚ :=
  a - b * (if 0 ≤ a / b then (⌊a / b⌋ : ℚ) else (⌈a / b⌉ : ℚ))

/-- The six keys of `PaletteGenerator.harmonyAlgorithms`. -/
inductive HarmonyKind where
  | monochromatic
  | complementary
  | triadic
  | tetradic
  | analogous
  | splitComplementary
deriving DecidableEq, Repr

/-- The algorithm bodies of `PaletteGenerator.initializeHarmonyAlgorithms`,
applied to the already-parsed base OKLCH triple (each JavaScript algorithm
first calls `culori.oklch(baseColor)` and returns `[]` on failure; that
dispatch is `harmony` below). -/
def harmonyAlgorithms (kind : HarmonyKind) (o : Oklch) : List Oklch :=
  match kind with
  | .monochromatic =>
    [{ o with l := max 0.1 (o.l - 0.3) },
     { o with l := max 0.1 (o.l - 0.15) },
     o,
     { o with l := min 0.95 (o.l + 0.15) },
     { o with l := min 0.95 (o.l + 0.3) }]
  | .complementary =>
    [o, { o with h := jsMod (o.h + 180) 360 }]
  | .triadic =>
    [o,
     { o with h := jsMod (o.h + 120) 360 },
     { o with h := jsMod (o.h + 240) 360 }]
  | .tetradic =>
    [o,
     { o with h := jsMod (o.h + 90) 360 },
     { o with h := jsMod (o.h + 180) 360 },
     { o with h := jsMod (o.h + 270) 360 }]
  | .analogous =>
    [{ o with h := jsMod (o.h - 30 + 360) 360 },
     { o with h := jsMod (o.h - 15 + 360) 360 },
     o,
     { o with h := jsMod (o.h + 15) 360 },
     { o with h := jsMod (o.h + 30) 360 }]
  | .splitComplementary =>
    [o,
     { o with h := jsMod (o.h + 150) 360 },
     { o with h := jsMod (o.h + 210) 360 }]

/-- A harmony algorithm as called: parse the base color with the external
library, return `[]` when parsing fails. -/
def harmony (parse : String → Option Oklch) (kind : HarmonyKind)
    (baseColor : String) : List Oklch :=
  match parse baseColor with
  | none => []
  | some o => harmonyAlgorithms kind o

/-- The fixed arity of each harmony kind (spec §8). -/
def harmonyArity : HarmonyKind → Nat
  | .monochromatic => 5
  | .complementary => 2
  | .triadic => 3
  | .tetradic => 4
  | .analogous => 5
  | .splitComplementary => 3

structure RampEntry where
  step : Nat
  color : Oklch
  hex : String
deriving DecidableEq, Repr

/-- `PaletteGenerator.generateColorRamp`: ten fixed steps, lightness scaled
from the step and clamped to `[0.05, 0.95]`, chroma attenuated above
lightness 0.8 and below 0.2 (`oklch.c || 0` is the identity on a total `ℚ`
field). -/
def generateColorRamp (parse : String → Option Oklch)
    (formatHex : Oklch → String) (baseColor : String) : List RampEntry :=
  match parse baseColor with
  | none => []
  | some oklch =>
    ([50, 100, 200, 300, 400, 500, 600, 700, 800, 900] : List Nat).map fun (step : Nat) =>
      let lightness : ℚ := 1 - ((step : ℚ) - 50) / 900
      let adjustedLightness := max 0.05 (min 0.95 lightness)
      let adjustedChroma :=
        if 0.8 < adjustedLightness then oklch.c * (0.8 / adjustedLightness) * 0.7
        else if adjustedLightness < 0.2 then
          oklch.c * (adjustedLightness / 0.2) * 0.8
        else oklch.c
      let rampColor : Oklch := { oklch with l := adjustedLightness, c := adjustedChroma }
      ⟨step, rampColor, formatHex rampColor⟩

/-! ## Contrast engine (accessibility checker source)

`culori.rgb` is external, but the claim under test evaluates it at two
6-digit hex literals, so its standard behavior on hex colors is modelled
concretely: `#rrggbb` (or `#rgb`) maps to the three 8-bit components scaled
to `[0, 1]`. Luminance lives in `ℝ` because the WCAG transform raises to the
real power 2.4. -/

/-- Value of one hexadecimal digit. -/
def hexDigitVal (c : Char) : Nat :=
  if c.isDigit then c.toNat - '0'.toNat
  else if 'a' ≤ c && c ≤ 'f' then c.toNat - 'a'.toNat + 10
  else if 'A' ≤ c && c ≤ 'F' then c.toNat - 'A'.toNat + 10
  else 0

/-- Model of the external `culori.rgb` on `#`-prefixed hex literals:
channels in `[0, 1]`, as the accessibility checker receives them. -/
def culoriRgbHex (s : String) : Option (ℚ × ℚ × ℚ) :=
  match s.data with
  | ['#', r1, r2, g1, g2, b1, b2] =>
    if [r1, r2, g1, g2, b1, b2].all isHexDigitChar then
      some (((16 * hexDigitVal r1 + hexDigitVal r2 : ℚ)) / 255,
            ((16 * hexDigitVal g1 + hexDigitVal g2 : ℚ)) / 255,
            ((16 * hexDigitVal b1 + hexDigitVal b2 : ℚ)) / 255)
    else none
  | ['#', r, g, b] =>
    if [r, g, b].all isHexDigitChar then
      some (((17 * hexDigitVal r : ℚ)) / 255,
            ((17 * hexDigitVal g : ℚ)) / 255,
            ((17 * hexDigitVal b : ℚ)) / 255)
    else none
  | _ => none

/-- The WCAG piecewise sRGB-to-linear transform of one channel
(`AccessibilityChecker.getRelativeLuminance`, inner map): threshold 0.03928,
divisor 12.92 below, `((c + 0.055) / 1.055) ^ 2.4` above. -/
noncomputable def srgbLinearize (c : ℝ) : ℝ :=
  if c ≤ 0.03928 then c / 12.92 else ((c + 0.055) / 1.055) ^ (2.4 : ℝ)

/-- `AccessibilityChecker.getRelativeLuminance`. -/
noncomputable def getRelativeLuminance (rgb : ℚ × ℚ × ℚ) : ℝ :=
  0.2126 * srgbLinearize (rgb.1 : ℝ) + 0.7152 * srgbLinearize (rgb.2.1 : ℝ) +
    0.0722 * srgbLinearize (rgb.2.2 : ℝ)

/-- `AccessibilityChecker.calculateContrastRatio`: `null` (`none`) when
either color fails to parse, else `(lighter + 0.05) / (darker + 0.05)`. -/
noncomputable def calculateContrastRatio (color1 color2 : String) : Option ℝ :=
  match culoriRgbHex color1, culoriRgbHex color2 with
  | some rgb1, some rgb2 =>
    let l1 := getRelativeLuminance rgb1
    let l2 := getRelativeLuminance rgb2
    some ((max l1 l2 + 0.05) / (min l1 l2 + 0.05))
  | _, _ => none

/-! ## Converter color history (`js/oklch-converter.js`, `ColorHistory`) -/

structure HistoryEntry where
  hex : String
  l : ℚ
  c : ℚ
  h : ℚ
  timestamp : ℤ
deriving DecidableEq, Repr

/-- Model of `parseFloat(x.toFixed(d))`: round to `d` decimal places. -/
def roundTo (d : Nat) (q : ℚ) : ℚ :=
  (⌊q * 10 ^ d + 1 / 2⌋ : ℚ) / 10 ^ d

/-- `ColorHistory.maxItems` (constructor). -/
def maxItems : Nat := 20

/-- `ColorHistory.addColor`: drop any entry with the same hex
(case-insensitive), prepend the new entry (hex lowercased, components
rounded), then truncate to `maxItems` when over capacity. -/
def addColor (history : List HistoryEntry) (hex : String) (l c h : ℚ)
    (timestamp : ℤ) : List HistoryEntry :=
  let filtered := history.filter fun item => jsToLower item.hex != jsToLower hex
  let updated : List HistoryEntry :=
    ⟨jsToLower hex, roundTo 3 l, roundTo 3 c, roundTo 1 h, timestamp⟩ :: filtered
  if maxItems < updated.length then updated.take maxItems else updated

/-! ## Supporting lemmas -/

theorem jsMod_eq_fract {a b : ℚ} (ha : 0 ≤ a) (hb : 0 < b) :
    jsMod a b = b * Int.fract (a / b) := by
  have hdiv : 0 ≤ a / b := div_nonneg ha hb.le
  rw [jsMod, if_pos hdiv, Int.fract, mul_sub, mul_div_cancel₀ a hb.ne']

theorem jsMod_nonneg {a b : ℚ} (ha : 0 ≤ a) (hb : 0 < b) : 0 ≤ jsMod a b := by
  rw [jsMod_eq_fract ha hb]
  exact mul_nonneg hb.le (Int.fract_nonneg _)

theorem jsMod_lt {a b : ℚ} (ha : 0 ≤ a) (hb : 0 < b) : jsMod a b < b := by
  rw [jsMod_eq_fract ha hb]
  calc b * Int.fract (a / b) < b * 1 :=
        (mul_lt_mul_left hb).mpr (Int.fract_lt_one _)
    _ = b := mul_one b

theorem charToLower_toNat {c : Char} (h : 65 ≤ c.toNat ∧ c.toNat ≤ 90) :
    c.toLower.toNat = c.toNat + 32 := by
  have hvalid : Nat.isValidChar (c.toNat + 32) := Or.inl (by omega)
  rw [Char.toLower]
  simp only [ge_iff_le]
  rw [if_pos ⟨h.1, h.2⟩, Char.ofNat, dif_pos hvalid]
  simp [Char.ofNatAux, Char.toNat, UInt32.toNat]

theorem charToLower_idem (c : Char) : c.toLower.toLower = c.toLower := by
  by_cases h : 65 ≤ c.toNat ∧ c.toNat ≤ 90
  · have h2 := charToLower_toNat h
    have hdef : c.toLower.toLower =
        if c.toLower.toNat ≥ 65 ∧ c.toLower.toNat ≤ 90 then
          Char.ofNat (c.toLower.toNat + 32)
        else c.toLower := rfl
    rw [hdef, if_neg (by rw [h2]; omega)]
  · have h1 : c.toLower = c := by
      rw [Char.toLower]
      simp only [ge_iff_le]
      rw [if_neg h]
    rw [h1, h1]

theorem jsToLower_idem (s : String) : jsToLower (jsToLower s) = jsToLower s := by
  simp [jsToLower, List.map_map, Function.comp_def, charToLower_idem]

theorem digitChar_isDigit {k : Nat} (hk : k < 10) :
    (Nat.digitChar k).isDigit = true := by
  interval_cases k <;> decide

theorem natDecAux_digits (fuel : Nat) :
    ∀ (n : Nat) (acc : List Char), (∀ c ∈ acc, c.isDigit = true) →
      ∀ c ∈ natDecAux fuel n acc, c.isDigit = true := by
  induction fuel with
  | zero => intro n acc hacc c hc; exact hacc c hc
  | succ fuel ih =>
    intro n acc hacc c hc
    rw [natDecAux] at hc
    split at hc
    · rcases List.mem_cons.mp hc with h | h
      · subst h; exact digitChar_isDigit (by omega)
      · exact hacc c h
    · refine ih _ _ ?_ c hc
      intro c' hc'
      rcases List.mem_cons.mp hc' with h | h
      · subst h; exact digitChar_isDigit (Nat.mod_lt _ (by omega))
      · exact hacc c' h

theorem natDecAux_length (fuel : Nat) :
    ∀ (n : Nat) (acc : List Char), acc.length ≤ (natDecAux fuel n acc).length := by
  induction fuel with
  | zero => intro n acc; exact Nat.le_refl _
  | succ fuel ih =>
    intro n acc
    rw [natDecAux]
    split
    · simp
    · calc acc.length ≤ (Nat.digitChar (n % 10) :: acc).length := by simp
        _ ≤ _ := ih _ _

theorem natToDecString_ne_nil (n : Nat) : (natToDecString n).data ≠ [] := by
  show natDecAux (n + 1) n [] ≠ []
  rw [natDecAux]
  split
  · simp
  · intro h
    have := natDecAux_length n (n / 10) [Nat.digitChar (n % 10)]
    rw [h] at this
    simp at this

/-- `jsStartsWith s "#"` only looks at the first character. -/
theorem jsStartsWith_hash (s : String) :
    jsStartsWith s "#" = (match s.data with
                          | c :: _ => '#' == c
                          | [] => false) := by
  rw [jsStartsWith]
  cases s.data with
  | nil => rfl
  | cons c t => simp [List.isPrefixOf]

theorem hash_beq_false {c : Char} (h : c.isDigit = true) : ('#' == c) = false := by
  rw [beq_eq_false_iff_ne]
  intro heq
  rw [← heq] at h
  exact absurd h (by decide)

theorem no_hash_of_digits {s : String} (h : ∀ c ∈ s.data, c.isDigit = true) :
    jsStartsWith s "#" = false := by
  rw [jsStartsWith_hash]
  cases hs : s.data with
  | nil => rfl
  | cons c t => exact hash_beq_false (h c (by rw [hs]; exact List.mem_cons_self c t))

theorem intToDecString_no_hash (i : ℤ) :
    jsStartsWith (intToDecString i) "#" = false := by
  rw [intToDecString]
  split
  · rw [jsStartsWith_hash]
    have hdata : ("-" ++ natToDecString i.natAbs).data =
        '-' :: (natToDecString i.natAbs).data := rfl
    rw [hdata]
    rfl
  · exact no_hash_of_digits fun c hc =>
      natDecAux_digits _ _ _ (by intro c' hc'; simp at hc') c hc

/-! ## Claims -/

/-- Claim C1, counterexample: the batch export does *not* produce one entry
per format. `getFileExtension` maps both `js` and `tailwind` to the
extension `js`, so `tokens.js` is assigned twice and the packaged mapping of
the seven rendered formats has six entries, not seven (shown here on the
empty token set). -/
theorem exportAll_not_seven_entries :
    (exportAll []).length = 6 ∧ (exportAll []).length ≠ 7 := by decide

/-- Claim C1, amended: `exportAll` renders all seven formats in order, but
packages them under `tokens.<extension>` keys; since `js` and `tailwind`
share the extension `js`, the `tailwind` rendering overwrites the `js` one
and the resulting mapping has exactly six entries, with `tokens.js` holding
the tailwind output. -/
theorem exportAll_six_entries (tokens : TokenSet) :
    exportAll tokens =
      [("tokens.css", generateCss tokens),
       ("tokens.scss", generateScss tokens),
       ("tokens.js", generateTailwind tokens),
       ("tokens.json", generateJson tokens),
       ("tokens.swift", generateIos tokens),
       ("tokens.xml", generateAndroid tokens)] := rfl

/-- The color rule exactly as claim C2 words it: `#` followed by 3, 4, 6, or
8 hex digits, or an `rgb`/`hsl` prefix, or the text contains "color"
(evaluated, like the code, on the lowercased value). -/
def specColorHex (s : String) : Bool :=
  match s.data with
  | '#' :: rest =>
    rest.all isHexDigitChar &&
      (rest.length = 3 || rest.length = 4 || rest.length = 6 || rest.length = 8)
  | _ => false

/-- The claim-C2 color predicate (spec wording). -/
def specColorRule (value : String) : Bool :=
  let v := jsToLower value
  specColorHex v || jsStartsWith v "rgb" || jsStartsWith v "hsl" ||
    jsIncludes v "color"

/-- Claim C2, counterexample: the code's hex pattern accepts 3 *to* 8 hex
digits, not only 3/4/6/8. The value `#abcde` (five hex digits) is classified
`color` by `inferTokenType` although the claim's rule rejects it. -/
theorem inferTokenType_hex5_color :
    inferTokenType "#abcde" = "color" ∧ specColorRule "#abcde" = false := by
  decide

/-- Claim C2, amended: `inferTokenType` classifies a value as `color` exactly
when its lowercased text matches `#` followed by 3 to 8 hex digits, or
starts with `rgb` or `hsl`, or contains "color"; this rule is checked before
the dimension, number and fontFamily rules, so a value that also satisfies a
later rule still takes `color`. -/
theorem inferTokenType_color_iff (value : String) :
    inferTokenType value = "color" ↔
      (matchesHexColor (jsToLower value) || jsStartsWith (jsToLower value) "rgb" ||
        jsStartsWith (jsToLower value) "hsl" ||
        jsIncludes (jsToLower value) "color") = true := by
  constructor
  · intro hEq
    by_contra hC
    simp only [inferTokenType] at hEq
    rw [if_neg hC] at hEq
    split at hEq
    · exact absurd hEq (by decide)
    · split at hEq
      · exact absurd hEq (by decide)
      · split at hEq
        · exact absurd hEq (by decide)
        · exact absurd hEq (by decide)
  · intro hC
    simp only [inferTokenType]
    rw [if_pos hC]

/-- Claim C3: `parseInput` detects the format in the fixed source order —
leading `\x7b` routes to the JSON/DTCG parser regardless of the other
shapes, otherwise a `--` occurrence routes to the CSS parser, otherwise a
`$` occurrence routes to the SCSS parser — and when none of the three shapes
match it fails with `FormatError` instead of producing a token set. -/
theorem parseInput_detection_order (jsonParse : String → Option Json)
    (input : String) :
    (jsStartsWith input "\x7b" = true →
      parseInput jsonParse input = parseJSON jsonParse input) ∧
    (jsStartsWith input "\x7b" = false → jsIncludes input "--" = true →
      parseInput jsonParse input = .ok (parseCSS input)) ∧
    (jsStartsWith input "\x7b" = false → jsIncludes input "--" = false →
      jsIncludes input "$" = true →
      parseInput jsonParse input = .ok (parseSCSS input)) ∧
    (jsStartsWith input "\x7b" = false → jsIncludes input "--" = false →
      jsIncludes input "$" = false →
      parseInput jsonParse input = .error TokenError.formatError) := by
  refine ⟨fun h1 => ?_, fun h1 h2 => ?_, fun h1 h2 h3 => ?_, fun h1 h2 h3 => ?_⟩
  · simp [parseInput, h1]
  · simp [parseInput, h1, h2]
  · simp [parseInput, h1, h2, h3]
  · simp [parseInput, h1, h2, h3]

/-- Witness for C3: concrete instantiations of each detection branch. -/
theorem parseInput_detection_order_witness :
    parseInput (fun _ => none) "hello world" = .error TokenError.formatError :=
  (parseInput_detection_order (fun _ => none) "hello world").2.2.2
    (by decide) (by decide) (by decide)

/-- Claim C7: parsing the CSS declaration `--foo: 8px;` and regenerating the
`css` format reproduces the declaration `--foo: 8px;` exactly (inside the
`:root` block the generator always emits). -/
theorem parseCSS_generateCss_roundtrip :
    generateCss (parseCSS "--foo: 8px;") = ":root \x7b\n  --foo: 8px;\n\x7d" ∧
    jsIncludes (generateCss (parseCSS "--foo: 8px;")) "--foo: 8px;" = true := by
  decide

theorem data_append (s t : String) : (s ++ t).data = s.data ++ t.data := rfl

theorem jsStartsWith_hash_append (s t : String) (hs : s.data ≠ []) :
    jsStartsWith (s ++ t) "#" = jsStartsWith s "#" := by
  rw [jsStartsWith_hash, jsStartsWith_hash, data_append]
  cases hsd : s.data with
  | nil => exact absurd hsd hs
  | cons c l => rfl

theorem intToDecString_ne_nil (i : ℤ) : (intToDecString i).data ≠ [] := by
  rw [intToDecString]
  split
  · simp [data_append]
  · exact natToDecString_ne_nil _

/-- The Android dimension conversion never introduces a leading `#`. -/
theorem convertDim_no_hash (v : String) (hv : jsStartsWith v "#" = false) :
    jsStartsWith (convertDimensionForAndroid v) "#" = false := by
  rw [convertDimensionForAndroid]
  by_cases h1 : jsIncludes v "px" = true
  · rw [if_pos h1]; exact hv
  · rw [if_neg h1]
    by_cases h2 : jsIncludes v "rem" = true
    · rw [if_pos h2]
      cases hm : jsParseFloat v with
      | none => simp only [hm]; decide
      | some q =>
        simp only [hm]
        rw [jsStartsWith_hash_append _ _ (intToDecString_ne_nil _)]
        exact intToDecString_no_hash _
    · rw [if_neg h2]
      by_cases h3 : matchesAllDigits v = true
      · rw [if_pos h3]
        have hne : v.data ≠ [] := by
          intro hnil
          rw [matchesAllDigits, hnil] at h3
          exact absurd h3 (by decide)
        rw [jsStartsWith_hash_append _ _ hne]
        exact hv
      · rw [if_neg h3]; exact hv

/-- Claim C10: in the Android output, a `color`-typed token whose value does
not start with `#` is emitted with `#` prepended, one whose value already
starts with `#` is emitted unchanged, and tokens of the other types are
emitted through the dimension conversion or verbatim — neither of which
introduces a leading `#`. -/
theorem androidLine_color_hash (name : String) (token : Token) :
    (token.type = "color" → jsStartsWith token.value "#" = false →
      androidLine name token =
        (.colors, "    <color name=\"" ++ androidResourceName name ++ "\">" ++
          ("#" ++ token.value) ++ "</color>\n")) ∧
    (token.type = "color" → jsStartsWith token.value "#" = true →
      androidLine name token =
        (.colors, "    <color name=\"" ++ androidResourceName name ++ "\">" ++
          token.value ++ "</color>\n")) ∧
    (token.type ≠ "color" → (androidLine name token).2 =
      (if token.type = "dimension" then
        "    <dimen name=\"" ++ androidResourceName name ++ "\">" ++
          convertDimensionForAndroid token.value ++ "</dimen>\n"
      else
        "    <string name=\"" ++ androidResourceName name ++ "\">" ++
          token.value ++ "</string>\n")) ∧
    (jsStartsWith token.value "#" = false →
      jsStartsWith (convertDimensionForAndroid token.value) "#" = false) := by
  refine ⟨fun ht hs => ?_, fun ht hs => ?_, fun ht => ?_, fun hv => ?_⟩
  · simp [androidLine, ht, hs]
  · simp [androidLine, ht, hs]
  · by_cases hd : token.type = "dimension"
    · simp [androidLine, ht, hd]
    · simp [androidLine, ht, hd]
  · exact convertDim_no_hash _ hv

/-- Witness for C10: a color token without the `#` prefix gets it
prepended. -/
theorem androidLine_color_hash_witness :
    androidLine "color.primary" ⟨"2196f3", "color", []⟩ =
      (.colors, "    <color name=\"" ++ androidResourceName "color.primary" ++
        "\">" ++ ("#" ++ "2196f3") ++ "</color>\n") :=
  (androidLine_color_hash "color.primary" ⟨"2196f3", "color", []⟩).1
    rfl (by decide)

/-- Claim C4: for every base color the external library parses into OKLCH
(culori normalizes hue into `[0, 360)`), each harmony kind returns its fixed
arity of colors (monochromatic 5, complementary 2, triadic 3, tetradic 4,
analogous 5, split-complementary 3), and every hue in the result lies in
`[0, 360)`. -/
theorem harmony_arity_hue_range (parse : String → Option Oklch)
    (kind : HarmonyKind) (baseColor : String) (o : Oklch)
    (hparse : parse baseColor = some o) (h0 : 0 ≤ o.h) (h1 : o.h < 360) :
    (harmony parse kind baseColor).length = harmonyArity kind ∧
    ∀ x ∈ harmony parse kind baseColor, 0 ≤ x.h ∧ x.h < 360 := by
  simp only [harmony, hparse]
  cases kind <;>
    refine ⟨rfl, ?_⟩ <;>
    intro x hx <;>
    simp only [harmonyAlgorithms, List.mem_cons, List.mem_singleton,
      List.not_mem_nil, or_false] at hx <;>
    rcases hx with rfl | rfl | rfl | rfl | rfl <;>
    first
      | exact ⟨h0, h1⟩
      | exact ⟨jsMod_nonneg (by linarith) (by norm_num),
               jsMod_lt (by linarith) (by norm_num)⟩

/-- Witness for C4 at a concrete environment and base color. -/
theorem harmony_arity_hue_range_witness :
    (harmony (fun _ => some ⟨1/2, 1/10, 200⟩) .triadic "#123456").length =
      harmonyArity .triadic ∧
    ∀ x ∈ harmony (fun _ => some ⟨1/2, 1/10, 200⟩) .triadic "#123456",
      0 ≤ x.h ∧ x.h < 360 :=
  harmony_arity_hue_range _ .triadic _ ⟨1/2, 1/10, 200⟩ rfl
    (by norm_num : (0:ℚ) ≤ 200) (by norm_num : (200:ℚ) < 360)

/-- The lightness clamp as claim C5 words it: clamp into `[0.1, 0.95]`. -/
def specClampLightness (x : ℚ) : ℚ := max 0.1 (min 0.95 x)

/-- Claim C5, counterexample: the monochromatic algorithm clamps only
one-sidedly and leaves the base entry untouched. For a base with lightness
`0.05` the middle entry keeps lightness `0.05`, while the claim's clamp of
`0.05 + 0` is `0.1`. -/
theorem monochromatic_unclamped_base :
    ((harmonyAlgorithms .monochromatic ⟨1/20, 1/10, 200⟩).map Oklch.l) =
      [1/10, 1/10, 1/20, 1/5, 7/20] ∧
    specClampLightness (1/20 + 0) = 1/10 ∧ ((1/20 : ℚ) ≠ 1/10) := by
  refine ⟨?_, ?_, by norm_num⟩
  · simp only [harmonyAlgorithms, List.map_cons, List.map_nil]
    norm_num [max_def, min_def]
  · norm_num [specClampLightness, max_def, min_def]

/-- Claim C5, amended: the five monochromatic entries carry the lightnesses
`max 0.1 (l − 0.3)`, `max 0.1 (l − 0.15)`, `l` (unchanged), `min 0.95
(l + 0.15)`, `min 0.95 (l + 0.3)`, with hue and chroma held constant; when
the base lightness lies in `[0.1, 0.95]` these coincide with the claimed
offsets `{−0.3, −0.15, 0, +0.15, +0.3}` clamped to `[0.1, 0.95]`. -/
theorem monochromatic_lightness_clamped (o : Oklch) (hl0 : 0.1 ≤ o.l)
    (hl1 : o.l ≤ 0.95) :
    ((harmonyAlgorithms .monochromatic o).map Oklch.l) =
      [specClampLightness (o.l - 0.3), specClampLightness (o.l - 0.15),
       specClampLightness (o.l + 0), specClampLightness (o.l + 0.15),
       specClampLightness (o.l + 0.3)] ∧
    ∀ x ∈ harmonyAlgorithms .monochromatic o, x.c = o.c ∧ x.h = o.h := by
  constructor
  · simp only [harmonyAlgorithms, List.map_cons, List.map_nil,
      specClampLightness, List.cons.injEq, and_true]
    refine ⟨?_, ?_, ?_, ?_, ?_⟩
    · rw [min_eq_right (by linarith)]
    · rw [min_eq_right (by linarith)]
    · rw [add_zero, min_eq_right hl1, max_eq_right hl0]
    · rw [max_eq_right (le_min (by norm_num) (by linarith))]
    · rw [max_eq_right (le_min (by norm_num) (by linarith))]
  · intro x hx
    simp only [harmonyAlgorithms, List.mem_cons, List.not_mem_nil,
      or_false] at hx
    rcases hx with rfl | rfl | rfl | rfl | rfl <;> exact ⟨rfl, rfl⟩

/-- Witness for C5 (amended) at a concrete base color. -/
theorem monochromatic_lightness_clamped_witness :
    ((harmonyAlgorithms .monochromatic ⟨1/2, 1/10, 200⟩).map Oklch.l) =
      [specClampLightness (1/2 - 0.3), specClampLightness (1/2 - 0.15),
       specClampLightness (1/2 + 0), specClampLightness (1/2 + 0.15),
       specClampLightness (1/2 + 0.3)] ∧
    ∀ x ∈ harmonyAlgorithms .monochromatic ⟨1/2, 1/10, 200⟩,
      x.c = 1/10 ∧ x.h = 200 :=
  monochromatic_lightness_clamped ⟨1/2, 1/10, 200⟩
    (by norm_num : (0.1 : ℚ) ≤ 1/2) (by norm_num : (1/2 : ℚ) ≤ 0.95)

/-- Claim C6: for every base color the external library parses, the ramp has
exactly 10 entries at the fixed steps 50…900, and entry lightness strictly
decreases as the step increases. -/
theorem generateColorRamp_ten_decreasing (parse : String → Option Oklch)
    (formatHex : Oklch → String) (baseColor : String) (o : Oklch)
    (hparse : parse baseColor = some o) :
    (generateColorRamp parse formatHex baseColor).length = 10 ∧
    (generateColorRamp parse formatHex baseColor).map RampEntry.step =
      [50, 100, 200, 300, 400, 500, 600, 700, 800, 900] ∧
    List.Chain' (fun a b => b.color.l < a.color.l)
      (generateColorRamp parse formatHex baseColor) := by
  simp only [generateColorRamp, hparse]
  refine ⟨by simp, by simp, ?_⟩
  simp only [List.map_cons, List.map_nil, List.chain'_cons, List.chain'_singleton]
  norm_num [max_def, min_def]

/-- Witness for C6 at a concrete environment and base color. -/
theorem generateColorRamp_ten_decreasing_witness :
    (generateColorRamp (fun _ => some ⟨1/2, 1/10, 200⟩) (fun _ => "")
        "#123456").length = 10 ∧
    (generateColorRamp (fun _ => some ⟨1/2, 1/10, 200⟩) (fun _ => "")
        "#123456").map RampEntry.step =
      [50, 100, 200, 300, 400, 500, 600, 700, 800, 900] ∧
    List.Chain' (fun a b => b.color.l < a.color.l)
      (generateColorRamp (fun _ => some ⟨1/2, 1/10, 200⟩) (fun _ => "")
        "#123456") :=
  generateColorRamp_ten_decreasing _ _ _ ⟨1/2, 1/10, 200⟩ rfl

theorem srgbLinearize_zero : srgbLinearize ((0 : ℚ) : ℝ) = 0 := by
  rw [srgbLinearize, if_pos (by norm_num)]
  norm_num

theorem srgbLinearize_one : srgbLinearize ((1 : ℚ) : ℝ) = 1 := by
  rw [srgbLinearize, if_neg (by norm_num)]
  have h : (((1 : ℚ) : ℝ) + 0.055) / 1.055 = 1 := by norm_num
  rw [h, Real.one_rpow]

theorem relativeLuminance_black : getRelativeLuminance (0, 0, 0) = 0 := by
  show 0.2126 * srgbLinearize ((0 : ℚ) : ℝ) + 0.7152 * srgbLinearize ((0 : ℚ) : ℝ) +
      0.0722 * srgbLinearize ((0 : ℚ) : ℝ) = 0
  rw [srgbLinearize_zero]
  ring

theorem relativeLuminance_white : getRelativeLuminance (1, 1, 1) = 1 := by
  show 0.2126 * srgbLinearize ((1 : ℚ) : ℝ) + 0.7152 * srgbLinearize ((1 : ℚ) : ℝ) +
      0.0722 * srgbLinearize ((1 : ℚ) : ℝ) = 1
  rw [srgbLinearize_one]
  norm_num

/-- Claim C8: the WCAG contrast ratio of black on white is exactly 21:
black's channels fall in the low branch of the piecewise transform (giving
luminance 0), white's in the power branch (giving luminance 1), and
`(1 + 0.05) / (0 + 0.05) = 21`. -/
theorem contrastRatio_black_white :
    calculateContrastRatio "#000000" "#ffffff" = some 21 := by
  have h000 : culoriRgbHex "#000000" = some (0, 0, 0) := by
    have h : culoriRgbHex "#000000" =
        some (((16 * hexDigitVal '0' + hexDigitVal '0' : ℚ)) / 255,
              ((16 * hexDigitVal '0' + hexDigitVal '0' : ℚ)) / 255,
              ((16 * hexDigitVal '0' + hexDigitVal '0' : ℚ)) / 255) := rfl
    rw [h, show hexDigitVal '0' = 0 from by decide]
    norm_num
  have hfff : culoriRgbHex "#ffffff" = some (1, 1, 1) := by
    have h : culoriRgbHex "#ffffff" =
        some (((16 * hexDigitVal 'f' + hexDigitVal 'f' : ℚ)) / 255,
              ((16 * hexDigitVal 'f' + hexDigitVal 'f' : ℚ)) / 255,
              ((16 * hexDigitVal 'f' + hexDigitVal 'f' : ℚ)) / 255) := rfl
    rw [h, show hexDigitVal 'f' = 15 from by decide]
    norm_num
  simp only [calculateContrastRatio, h000, hfff]
  rw [relativeLuminance_black, relativeLuminance_white]
  rw [max_eq_right (by norm_num : (0 : ℝ) ≤ 1),
    min_eq_left (by norm_num : (0 : ℝ) ≤ 1)]
  norm_num

/-- Claim C9: after any `addColor` on a history whose entries are pairwise
distinct by lowercased hex, the history still holds at most 20 entries, the
entry just added (hex lowercased, components rounded) is first, and entries
remain pairwise distinct by lowercased hex — the new entry replaced any
existing entry with the same hex. -/
theorem addColor_invariants (history : List HistoryEntry) (hex : String)
    (l c h : ℚ) (ts : ℤ)
    (hdedup : history.Pairwise fun a b => jsToLower a.hex ≠ jsToLower b.hex) :
    (addColor history hex l c h ts).length ≤ 20 ∧
    (addColor history hex l c h ts).head? =
      some ⟨jsToLower hex, roundTo 3 l, roundTo 3 c, roundTo 1 h, ts⟩ ∧
    (addColor history hex l c h ts).Pairwise
      fun a b => jsToLower a.hex ≠ jsToLower b.hex := by
  simp only [addColor]
  have hpair :
      ((⟨jsToLower hex, roundTo 3 l, roundTo 3 c, roundTo 1 h, ts⟩ :
          HistoryEntry) ::
        history.filter fun item =>
          jsToLower item.hex != jsToLower hex).Pairwise
        (fun a b => jsToLower a.hex ≠ jsToLower b.hex) := by
    refine List.Pairwise.cons ?_ (hdedup.filter _)
    intro e he
    have hne : jsToLower e.hex ≠ jsToLower hex := by
      have := (List.mem_filter.mp he).2
      simpa using this
    show jsToLower (jsToLower hex) ≠ jsToLower e.hex
    rw [jsToLower_idem]
    exact fun heq => hne heq.symm
  refine ⟨?_, ?_, ?_⟩
  · split
    · simp [List.length_take, maxItems]
    · next hlen =>
      simp only [maxItems] at hlen
      omega
  · split
    · show (List.take (19 + 1) (_ :: _)).head? = _
      rw [List.take_succ_cons]
      rfl
    · rfl
  · split
    · exact hpair.sublist (List.take_sublist _ _)
    · exact hpair

/-- Witness for C9: adding a color to the empty history. -/
theorem addColor_invariants_witness :
    (addColor [] "#FF0000" (1/2) (1/10) 200 0).length ≤ 20 ∧
    (addColor [] "#FF0000" (1/2) (1/10) 200 0).head? =
      some ⟨jsToLower "#FF0000", roundTo 3 (1/2), roundTo 3 (1/10),
        roundTo 1 200, 0⟩ ∧
    (addColor [] "#FF0000" (1/2) (1/10) 200 0).Pairwise
      fun a b => jsToLower a.hex ≠ jsToLower b.hex :=
  addColor_invariants [] "#FF0000" (1/2) (1/10) 200 0 List.Pairwise.nil

end Auxilia
